import Mathlib

/-!
Verification of the nali-rs binary-database decoding and lookup core.

The Rust source is shallowly embedded: memory-mapped buffers become
`List Nat` of byte values, `u32`/`u64` arithmetic becomes `Nat` with
explicit wrap (`% 2^32`, `% 2^64`) where the release-profile wrapping
semantics can matter, fallible operations return `Except NaliError`,
and loops that the source runs unboundedly take a fuel argument and
return `Option` (with `none` for fuel exhaustion, i.e. divergence).
Decoded text stays at the byte level (`List Nat`): the GBK / UTF-8
conversions are external collaborators of the verified core.
-/

/-- Error taxonomy, mirroring the variants of `NaliError` in `src/error.rs`
that the embedded core can produce. Payload strings are kept. -/
inductive NaliError where
  | DatabaseNotFound (msg : String)
  | ParseError (msg : String)
  | DatabaseNotLoaded (msg : String)
  | DatabaseCorrupted (msg : String)
  | IoError (msg : String)
  | YamlError (msg : String)
  | Other (msg : String)
  deriving Repr, DecidableEq

/-- Decidable equality for `Except`, so concrete runs of the fallible
operations can be checked by evaluation. -/
instance {ε α : Type} [DecidableEq ε] [DecidableEq α] : DecidableEq (Except ε α) := fun a b =>
  match a, b with
  | .ok x, .ok y =>
    if h : x = y then isTrue (by subst h; rfl)
    else isFalse (fun hh => h (by cases hh; rfl))
  | .error x, .error y =>
    if h : x = y then isTrue (by subst h; rfl)
    else isFalse (fun hh => h (by cases hh; rfl))
  | .ok _, .error _ => isFalse (fun hh => Except.noConfusion hh)
  | .error _, .ok _ => isFalse (fun hh => Except.noConfusion hh)

/-- IP addresses: the numeric value of `Ipv4Addr` (big-endian `u32`) or of
`Ipv6Addr` (big-endian `u128`), as in `std::net::IpAddr`. -/
inductive Ip where
  | v4 (n : Nat)
  | v6 (n : Nat)
  deriving Repr, DecidableEq

/-- Embedding of `GeoLocation` from `src/database/mod.rs`, parametric in the string
representation σ (byte lists for the GBK/UTF-8 formats, `String` where the
source builds literals). `latitude`/`longitude` are `f64` fields that the
embedded formats always leave `None`; they are carried as `Option Unit`. -/
structure GeoLocation (σ : Type) where
  ip : Ip
  country : Option σ
  region : Option σ
  city : Option σ
  isp : Option σ
  country_code : Option σ
  timezone : Option σ
  latitude : Option Unit
  longitude : Option Unit
  deriving Repr, DecidableEq

/-- Byte access `data[i]` into a mapped buffer. Reads are total in the model
(out-of-range reads yield 0); every theorem below keeps its inputs in bounds. -/
def byteAt (data : List Nat) (i : Nat) : Nat :=
  data.getD i 0

/-- Embedding of `u16::from_le_bytes` on `data[p..p+2]`. -/
def readU16LE (data : List Nat) (p : Nat) : Nat :=
  byteAt data p % 256 + byteAt data (p + 1) % 256 * 256

/-- Embedding of `u32::from_le_bytes` on `data[p..p+4]`. -/
def readU32LE (data : List Nat) (p : Nat) : Nat :=
  byteAt data p % 256 + byteAt data (p + 1) % 256 * 256 +
    byteAt data (p + 2) % 256 * 65536 + byteAt data (p + 3) % 256 * 16777216

/-- Embedding of `u64::from_le_bytes` on `data[p..p+8]`. -/
def readU64LE (data : List Nat) (p : Nat) : Nat :=
  readU32LE data p + readU32LE data (p + 4) * 4294967296

/-- Embedding of `bytes3_to_u32` from `src/database/qqwry/mod.rs` (duplicated in
`zxipv6/mod.rs`): three bytes assembled low-to-high with the source's
`& 0xff` masks. -/
def bytes3_to_u32 (data : List Nat) (p : Nat) : Nat :=
  byteAt data p % 256 + byteAt data (p + 1) % 256 * 256 +
    byteAt data (p + 2) % 256 * 65536

namespace QQwry

/-- Loaded-state fields of `QQwryDatabase` (`src/database/qqwry/mod.rs`). -/
structure State where
  loaded : Bool
  mmap : Option (List Nat)
  idx_start : Nat
  idx_end : Nat
  deriving Repr, DecidableEq

/-- The binary-search loop of `QQwryDatabase::search_index`
(`src/database/qqwry/mod.rs` lines 163-204): 7-byte entries, 4-byte
little-endian key, 3-byte payload, truncating entry-aligned midpoint,
right-boundary comparison once `r - l` equals one stride, exact-hit
short-circuit. Fuel counts loop iterations; `none` means the loop
was still running (the source loops forever in that case). -/
def search_index_go (data : List Nat) (ip : Nat) : Nat → Nat → Nat → Option Nat
  | 0, _, _ => none
  | fuel + 1, l, r =>
    let mid := (r - l) / 7 / 2 * 7 + l
    let mid_ip := readU32LE data mid
    if r - l = 7 then
      let r_ip := readU32LE data r
      let offset_pos := if r_ip ≤ ip then r else mid
      some (bytes3_to_u32 data (offset_pos + 4))
    else if ip < mid_ip then search_index_go data ip fuel l mid
    else if mid_ip < ip then search_index_go data ip fuel mid r
    else some (bytes3_to_u32 data (mid + 4))

/-- Embedding of `QQwryDatabase::search_index`: errors when no buffer is mapped,
otherwise runs the loop over `[idx_start, idx_end]`. -/
def search_index (st : State) (ip : Nat) (fuel : Nat) : Option (Except NaliError Nat) :=
  match st.mmap with
  | some data => (search_index_go data ip fuel st.idx_start st.idx_end).map Except.ok
  | none => some (.error (.ParseError "Database not loaded"))

/-- The 4-byte little-endian key of index entry `j` of a region whose first
entry starts at byte `s` (entry stride 7). -/
def entry_key (data : List Nat) (s j : Nat) : Nat :=
  readU32LE data (s + 7 * j)

/-- The 3-byte payload of index entry `j` of the region starting at `s`. -/
def entry_payload (data : List Nat) (s j : Nat) : Nat :=
  bytes3_to_u32 data (s + 7 * j + 4)

/-- Concrete 3-entry region (keys 10, 20, 30) used to witness C1. -/
def c1Data : List Nat :=
  [10, 0, 0, 0, 1, 0, 0,
   20, 0, 0, 0, 2, 0, 0,
   30, 0, 0, 0, 3, 0, 0]

end QQwry

namespace Reader

/-- Cursor state of `Reader` (`src/database/qqwry/mod.rs` lines 27-31, the
same struct is duplicated in `src/database/zxipv6/mod.rs`): a position and a
single-slot previous-position register. -/
structure RState where
  pos : Nat
  last_pos : Nat
  deriving Repr, DecidableEq

/-- Embedding of `Reader::seek_abs`: record the previous position, jump to `offset`. -/
def seek_abs (st : RState) (offset : Nat) : RState :=
  { pos := offset, last_pos := st.pos }

/-- Embedding of `Reader::seek_back`: return to the recorded previous position. -/
def seek_back (st : RState) : RState :=
  { st with pos := st.last_pos }

/-- Embedding of `Reader::read_mode`: read one byte, record the previous position,
advance one byte. -/
def read_mode (data : List Nat) (st : RState) : Nat × RState :=
  (byteAt data st.pos, { pos := st.pos + 1, last_pos := st.pos })

/-- Embedding of `Reader::read_offset`: read a 3-byte little-endian offset and advance 3
bytes; with `follow` the previous-position register is then set to the
position after the read (not before) and the cursor jumps to the offset. -/
def read_offset (data : List Nat) (st : RState) (follow : Bool) : Nat × RState :=
  let offset := bytes3_to_u32 data st.pos
  if follow then
    (offset, { pos := offset, last_pos := st.pos + 3 })
  else
    (offset, { pos := st.pos + 3, last_pos := st.pos })

/-- Number of bytes before the first zero byte of a list (or its end):
the scan inside `Reader::read_string`. -/
def lenToZero : List Nat → Nat
  | [] => 0
  | b :: rest => if b = 0 then 0 else lenToZero rest + 1

/-- Embedding of `Reader::read_string`: the bytes from the cursor up to the next zero
byte (or the end of the buffer); with `advance` the cursor moves one past
the terminator and the previous position is recorded. -/
def read_string (data : List Nat) (st : RState) (advance : Bool) : List Nat × RState :=
  let n := lenToZero (data.drop st.pos)
  let s := (data.drop st.pos).take n
  if advance then
    (s, { pos := st.pos + n + 1, last_pos := st.pos })
  else
    (s, st)

/-- Embedding of `Reader::read_area`: a mode byte of 1 or 2 redirects through a
3-byte offset (an offset of exactly 0 is the empty area), anything else is
the first byte of a literal string read in place. -/
def read_area (data : List Nat) (st : RState) : List Nat × RState :=
  let (mode, st1) := read_mode data st
  if mode = 1 ∨ mode = 2 then
    let (offset, st2) := read_offset data st1 true
    if offset = 0 then ([], st2)
    else read_string data st2 false
  else
    read_string data (seek_back st1) false

/-- Embedding of `Reader::parse_redirect_mode2`: follow the country offset, read the
string there without advancing, undo back to just after the offset field. -/
def parse_redirect_mode2 (data : List Nat) (st : RState) : List Nat × RState :=
  let (_, st1) := read_offset data st true
  let (s, _) := read_string data st1 false
  (s, seek_back st1)

/-- Embedding of `Reader::parse` (`src/database/qqwry/mod.rs` lines 92-118): seek when
`offset ≠ 0`, then branch on the mode byte — 1 is a full redirect (handled
recursively, consuming one unit of fuel; `none` when fuel runs out, where
the source would chase pointers forever), 2 decodes the country through a
pointer and the area in place, anything else is a literal record. -/
def parse (data : List Nat) : Nat → RState → Nat → Option (List Nat × List Nat)
  | fuel, st, offset =>
    let st0 := if offset ≠ 0 then seek_abs st offset else st
    let (mode, st1) := read_mode data st0
    if mode = 1 then
      let (_, st2) := read_offset data st1 true
      match fuel with
      | 0 => none
      | f + 1 => parse data f st2 0
    else if mode = 2 then
      let (country, st2) := parse_redirect_mode2 data st1
      let (area, _) := read_area data st2
      some (country, area)
    else
      let (country, st3) := read_string data (seek_back st1) true
      let (area, _) := read_area data st3
      some (country, area)

/-- A fresh reader: `Reader::new` starts at position 0. -/
def init : RState := { pos := 0, last_pos := 0 }

/-- Concrete buffer for the C4 witness, part (a): a mode-1 record at offset
1 whose 3-byte offset points to the literal record at offset 8
(country bytes [65,66], area byte [67]). -/
def c4DataA : List Nat :=
  [0, 1, 8, 0, 0, 0, 0, 0, 65, 66, 0, 67, 0]

/-- Concrete buffer for the C4 witness, part (b): a mode-2 record at offset
1 whose country pointer is 10 (literal byte 88 = "X" there) and whose
literal area [89] = "Y" follows the offset field at position 5. -/
def c4DataB : List Nat :=
  [0, 2, 10, 0, 0, 89, 0, 0, 0, 0, 88, 0, 0]

end Reader

/-- Bytes of an ASCII string literal (code points = bytes for ASCII). -/
def strBytes (s : String) : List Nat :=
  s.toList.map Char.toNat

/-- ASCII whitespace, the byte-level restriction of Rust's `str::trim`
predicate (the databases' trademark cleanup only ever strips ASCII). -/
def asciiWhitespace (b : Nat) : Bool :=
  b == 32 || b == 9 || b == 10 || b == 11 || b == 12 || b == 13

/-- Byte-level model of `str::trim`: strip leading and trailing whitespace. -/
def trimBytes (l : List Nat) : List Nat :=
  ((l.dropWhile asciiWhitespace).reverse.dropWhile asciiWhitespace).reverse

/-- Byte-level model of `str::replace("CZ88.NET", "")`: remove every
(left-to-right, non-overlapping) occurrence of the trademark token
`CZ88.NET` = [67, 90, 56, 56, 46, 78, 69, 84]. -/
def replace_cz88 : List Nat → List Nat
  | 67 :: 90 :: 56 :: 56 :: 46 :: 78 :: 69 :: 84 :: rest => replace_cz88 rest
  | b :: rest => b :: replace_cz88 rest
  | [] => []

/-- Embedding of `gbk_to_utf8` from `src/utils/encoding.rs`: the GBK decode itself is an
external collaborator (encoding_rs) and is modelled as the identity on
bytes; the function's own trim of the decoded string is mirrored. It never
fails (lossy replacement on bad sequences). -/
def gbk_to_utf8 (bs : List Nat) : List Nat :=
  trimBytes bs

namespace QQwry

/-- Embedding of `QQwryDatabase::load_from_file` (`src/database/qqwry/mod.rs` lines
287-320) after the memory map step (file I/O and mmap are external):
the 8-byte-minimum check, the header read, and the
`idx_start >= idx_end || len < idx_end + 7` validation. `idx_end + 7` is
`u32` arithmetic, modelled with its release-profile wrap. -/
def load_from_file (data : List Nat) : Except NaliError State :=
  if data.length < 8 then
    .error (.ParseError "Invalid QQwry database: file too small")
  else
    let idx_start := readU32LE data 0
    let idx_end := readU32LE data 4
    if idx_start ≥ idx_end ∨ data.length < (idx_end + 7) % 2 ^ 32 then
      .error (.ParseError "Invalid QQwry database: header validation failed")
    else
      .ok { loaded := true, mmap := some data, idx_start := idx_start, idx_end := idx_end }

/-- Embedding of `QQwryDatabase::lookup_ipv4`: search the index, parse the record 4
bytes past the returned offset (skipping the range's end-IP field), decode
GBK and strip the trademark token. Outer `none` = a diverging search or
pointer chase. -/
def lookup_ipv4 (st : State) (sFuel pFuel ip : Nat) :
    Option (Except NaliError (Option (GeoLocation (List Nat)))) :=
  match st.mmap with
  | some data =>
    match search_index_go data ip sFuel st.idx_start st.idx_end with
    | none => none
    | some offset =>
      match Reader.parse data pFuel Reader.init (offset + 4) with
      | none => none
      | some (country_bytes, area_bytes) =>
        let country := trimBytes (replace_cz88 (gbk_to_utf8 country_bytes))
        let area := trimBytes (replace_cz88 (gbk_to_utf8 area_bytes))
        some (.ok (some
          { ip := .v4 ip
            country := if country ≠ [] then some country else none
            region := none
            city := none
            isp := if area ≠ [] then some area else none
            country_code := some (strBytes "CN")
            timezone := some (strBytes "Asia/Shanghai")
            latitude := none
            longitude := none }))
  | none => some (.ok none)

/-- Embedding of `QQwryDatabase::lookup_ip` (`src/database/qqwry/mod.rs` lines 265-276):
IPv4 is converted to its big-endian numeric form and looked up; IPv6 is
unsupported and answers `Ok(None)` unconditionally. -/
def lookup_ip (st : State) (sFuel pFuel : Nat) :
    Ip → Option (Except NaliError (Option (GeoLocation (List Nat))))
  | .v4 n => lookup_ipv4 st sFuel pFuel n
  | .v6 _ => some (.ok none)

end QQwry

namespace ZX

/-- Loaded-state fields of `ZXIPv6Database` (`src/database/zxipv6/mod.rs`). -/
structure State where
  loaded : Bool
  mmap : Option (List Nat)
  idx_start : Nat
  idx_end : Nat
  off_len : Nat
  ip_len : Nat
  deriving Repr, DecidableEq

/-- Embedding of `ZXIPv6Database::check_file` (`src/database/zxipv6/mod.rs` lines
166-187): magic `IPDB`, a 24-byte minimum, and
`start >= end || len < end` for `end = start + counts * 11` (`u64`
arithmetic, modelled with its wrap). -/
def check_file (data : List Nat) : Bool :=
  if data.length < 4 then false
  else if data.take 4 ≠ [73, 80, 68, 66] then false
  else if data.length < 24 then false
  else
    let start := readU64LE data 16
    let counts := readU64LE data 8
    let e := (start + counts * 11) % 2 ^ 64
    if start ≥ e ∨ data.length < e then false
    else true

/-- Embedding of `ZXIPv6Database::load_from_file` after the memory map step: validate
via `check_file`, then read the field widths, record count and index
start, computing `idx_end = idx_start + counts * 11`. -/
def load_from_file (data : List Nat) : Except NaliError State :=
  if ¬ check_file data then
    .error (.ParseError "Invalid ZX IPv6 database: file validation failed")
  else
    let off_len := byteAt data 6
    let ip_len := byteAt data 7
    let counts := readU64LE data 8
    let idx_start := readU64LE data 16
    let idx_end := (idx_start + counts * 11) % 2 ^ 64
    .ok { loaded := true, mmap := some data, idx_start := idx_start,
          idx_end := idx_end, off_len := off_len, ip_len := ip_len }

/-- The binary-search loop of `ZXIPv6Database::search_index`
(`src/database/zxipv6/mod.rs` lines 190-231): same shape as the QQwry
loop but with 8-byte little-endian keys and entry stride
`off_len + ip_len`; the 3-byte payload is read `ip_len` bytes into the
winning entry. -/
def search_index_go (data : List Nat) (ip entry_len ip_len : Nat) :
    Nat → Nat → Nat → Option Nat
  | 0, _, _ => none
  | fuel + 1, l, r =>
    let mid := (r - l) / entry_len / 2 * entry_len + l
    let mid_ip := readU64LE data mid
    if r - l = entry_len then
      let r_ip := readU64LE data r
      let offset_pos := if r_ip ≤ ip then r else mid
      some (bytes3_to_u32 data (offset_pos + ip_len))
    else if ip < mid_ip then search_index_go data ip entry_len ip_len fuel l mid
    else if mid_ip < ip then search_index_go data ip entry_len ip_len fuel mid r
    else some (bytes3_to_u32 data (mid + ip_len))

/-- Embedding of `ZXIPv6Database::search_index`: errors when no buffer is mapped. -/
def search_index (st : State) (ip fuel : Nat) : Option (Except NaliError Nat) :=
  match st.mmap with
  | some data =>
    (search_index_go data ip (st.off_len + st.ip_len) st.ip_len fuel
      st.idx_start st.idx_end).map Except.ok
  | none => some (.error (.ParseError "Database not loaded"))

/-- Embedding of `ZXIPv6Database::lookup_ipv6` (`src/database/zxipv6/mod.rs` lines
234-281): search the index, run the shared pointer-chasing decoder at the
returned offset, keep the strings as UTF-8 bytes (`from_utf8_lossy` is an
external collaborator, modelled as the identity on bytes), strip the
trademark token, and rebuild the display address from the 64-bit prefix
with the low 64 bits zero-filled. -/
def lookup_ipv6 (st : State) (sFuel pFuel ip : Nat) :
    Option (Except NaliError (Option (GeoLocation (List Nat)))) :=
  match st.mmap with
  | some data =>
    match search_index_go data ip (st.off_len + st.ip_len) st.ip_len sFuel
        st.idx_start st.idx_end with
    | none => none
    | some offset =>
      match Reader.parse data pFuel Reader.init offset with
      | none => none
      | some (country_bytes, area_bytes) =>
        let country := trimBytes (replace_cz88 country_bytes)
        let area := trimBytes (replace_cz88 area_bytes)
        some (.ok (some
          { ip := .v6 (ip % 2 ^ 64 * 2 ^ 64)
            country := if country ≠ [] then some country else none
            region := none
            city := none
            isp := if area ≠ [] then some area else none
            country_code := none
            timezone := none
            latitude := none
            longitude := none }))
  | none => some (.ok none)

/-- Embedding of `ZXIPv6Database::lookup_ip` (`src/database/zxipv6/mod.rs` lines
305-321): IPv4 is unsupported and answers `Ok(None)`; for IPv6 only the
first 64 bits (big-endian) of the address are used as the lookup key. -/
def lookup_ip (st : State) (sFuel pFuel : Nat) :
    Ip → Option (Except NaliError (Option (GeoLocation (List Nat))))
  | .v4 _ => some (.ok none)
  | .v6 a => lookup_ipv6 st sFuel pFuel (a / 2 ^ 64 % 2 ^ 64)

end ZX

/-- Embedding of `l.startsWith sub`: byte-list prefix test, helper for substring search. -/
def startsWithBytes : List Nat → List Nat → Bool
  | _, [] => true
  | [], _ :: _ => false
  | a :: l, b :: s => a == b && startsWithBytes l s

/-- Byte-level model of `str::contains(substr)` for the (valid UTF-8)
keyword literals of the IPIP categorizer: contiguous-sublist containment. -/
def containsSub (sub : List Nat) : List Nat → Bool
  | [] => startsWithBytes [] sub
  | b :: rest => startsWithBytes (b :: rest) sub || containsSub sub rest

/-- Model of `str::split('\0')`: segments between zero bytes (empty
segments included, as in Rust). -/
def splitOnZero : List Nat → List (List Nat)
  | [] => [[]]
  | 0 :: rest => [] :: splitOnZero rest
  | b :: rest =>
    match splitOnZero rest with
    | [] => [[b]]
    | seg :: segs => (b :: seg) :: segs

namespace IPIP

/-- Embedding of `IPIPHeader` from `src/database/ipip/header.rs`. -/
structure IPIPHeader where
  version : Nat
  created_time : Nat
  index_start : Nat
  index_end : Nat
  support_ipv6 : Bool
  deriving Repr, DecidableEq

/-- Embedding of `IPIPHeader::parse` (`src/database/ipip/header.rs` lines 15-39): a
16-byte minimum, four little-endian `u32` fields, and the optional
IPv6-support flag at byte 16. No other validation is performed. -/
def IPIPHeader.parse (data : List Nat) : Except NaliError IPIPHeader :=
  if data.length < 16 then
    .error (.ParseError "Invalid IPIP database: file too small")
  else
    .ok { version := readU32LE data 0
          created_time := readU32LE data 4
          index_start := readU32LE data 8
          index_end := readU32LE data 12
          support_ipv6 := if data.length > 16 then byteAt data 16 = 1 else false }

/-- Embedding of `IPIPHeader::index_count`: `(index_end - index_start) / 16`, `u32`
subtraction modelled with its wrap. -/
def IPIPHeader.index_count (h : IPIPHeader) : Nat :=
  (h.index_end + 2 ^ 32 - h.index_start) % 2 ^ 32 / 16

/-- Embedding of `IPIPRecord` from `src/database/ipip/record.rs`: a 16-byte fixed
record. -/
structure IPIPRecord where
  start_ip : Nat
  end_ip : Nat
  country_id : Nat
  region_id : Nat
  city_id : Nat
  isp_id : Nat
  deriving Repr, DecidableEq

/-- Embedding of `IPIPRecord::parse` (`src/database/ipip/record.rs` lines 14-37):
bounds-check the 16-byte window, then read the little-endian fields. -/
def IPIPRecord.parse (data : List Nat) (offset : Nat) : Except NaliError IPIPRecord :=
  if offset + 16 > data.length then
    .error (.ParseError ("Record offset out of bounds: " ++ toString offset))
  else
    .ok { start_ip := readU32LE data offset
          end_ip := readU32LE data (offset + 4)
          country_id := readU16LE data (offset + 8)
          region_id := readU16LE data (offset + 10)
          city_id := readU16LE data (offset + 12)
          isp_id := readU16LE data (offset + 14)}

/-- Embedding of `IPIPTranslationTables` from `src/database/ipip/translation.rs`:
four ordered string tables (strings kept as UTF-8 byte lists). -/
structure IPIPTranslationTables where
  countries : List (List Nat)
  regions : List (List Nat)
  cities : List (List Nat)
  isps : List (List Nat)
  deriving Repr, DecidableEq

/-- UTF-8 bytes of the keyword "国家" (country). -/
def kwCountry : List Nat := [229, 155, 189, 229, 174, 182]

/-- UTF-8 bytes of the keyword "省" (province). -/
def kwSheng : List Nat := [231, 156, 129]

/-- UTF-8 bytes of the keyword "州" (prefecture/state). -/
def kwZhou : List Nat := [229, 183, 158]

/-- UTF-8 bytes of the keyword "市" (city). -/
def kwShi : List Nat := [229, 184, 130]

/-- UTF-8 bytes of the keyword "电信" (telecom). -/
def kwDianxin : List Nat := [231, 148, 181, 228, 191, 161]

/-- UTF-8 bytes of the keyword "运营商" (operator). -/
def kwYunyingshang : List Nat := [232, 191, 144, 232, 144, 165, 229, 149, 134]

/-- The per-line substring-keyword categorizer of
`IPIPTranslationTables::parse`: empty lines are skipped, the first
matching keyword family wins, unmatched lines are dropped. -/
def categorize_line (t : IPIPTranslationTables) (line : List Nat) : IPIPTranslationTables :=
  if line = [] then t
  else if containsSub kwCountry line || containsSub (strBytes "China") line ||
      containsSub (strBytes "United States") line then
    { t with countries := t.countries ++ [line] }
  else if containsSub kwSheng line || containsSub kwZhou line ||
      containsSub (strBytes "Province") line then
    { t with regions := t.regions ++ [line] }
  else if containsSub kwShi line || containsSub (strBytes "City") line then
    { t with cities := t.cities ++ [line] }
  else if containsSub kwDianxin line || containsSub kwYunyingshang line ||
      containsSub (strBytes "ISP") line then
    { t with isps := t.isps ++ [line] }
  else t

/-- Embedding of `IPIPTranslationTables::parse` (`src/database/ipip/translation.rs`
lines 16-54): the text blob starting at
`index_end + index_count * 16` (u32 arithmetic) is split on zero bytes and
categorized; when the blob start is not inside the buffer the tables stay
empty. The source wraps the result in `Ok` unconditionally — this parse
cannot fail. -/
def IPIPTranslationTables.parse (data : List Nat) (header : IPIPHeader) :
    IPIPTranslationTables :=
  let text_start := (header.index_end + header.index_count * 16) % 2 ^ 32
  if text_start < data.length then
    (splitOnZero (data.drop text_start)).foldl categorize_line ⟨[], [], [], []⟩
  else
    ⟨[], [], [], []⟩

/-- Embedding of `IPIPTranslationTables::translate`
(`src/database/ipip/translation.rs` lines 57-89): index into the named
table, with out-of-range ids resolving to "Unknown". -/
def IPIPTranslationTables.translate (t : IPIPTranslationTables) (id : Nat)
    (table_name : String) : List Nat :=
  match table_name with
  | "countries" =>
    if id < t.countries.length then t.countries.getD id [] else strBytes "Unknown"
  | "regions" =>
    if id < t.regions.length then t.regions.getD id [] else strBytes "Unknown"
  | "cities" =>
    if id < t.cities.length then t.cities.getD id [] else strBytes "Unknown"
  | "isps" =>
    if id < t.isps.length then t.isps.getD id [] else strBytes "Unknown"
  | _ => strBytes "Unknown"

/-- State fields of `IPIPDatabase` (`src/database/ipip/database.rs`). -/
structure State where
  loaded : Bool
  mmap : Option (List Nat)
  file_size : Nat
  header : Option IPIPHeader
  translation_tables : Option IPIPTranslationTables
  ipv6_support : Bool
  deriving Repr, DecidableEq

/-- The narrowing loop of `IPIPDatabase::lookup_ip_internal_v4`
(`src/database/ipip/database.rs` lines 55-103), verbatim: `while low <=
high`, the *byte-offset* midpoint `(low + high) / 2` (not entry-aligned),
the `mid + 16 > file_size` break, direct range-containment testing, and
the `mid ± 16` narrowing steps (`u32` arithmetic with wrap). When the
containment branch is reached with no translation tables the source loops
without narrowing; the model recurses on the same bounds, consuming fuel. -/
def lookup_go (data : List Nat) (file_size : Nat)
    (tables : Option IPIPTranslationTables) (ip : Nat) :
    Nat → Nat → Nat → Option (Except NaliError (Option (GeoLocation (List Nat))))
  | 0, _, _ => none
  | fuel + 1, low, high =>
    if low ≤ high then
      let mid := (low + high) % 2 ^ 32 / 2
      if mid + 16 > file_size then some (.ok none)
      else
        match IPIPRecord.parse data mid with
        | .error e => some (.error e)
        | .ok record =>
          if record.start_ip ≤ ip ∧ ip ≤ record.end_ip then
            match tables with
            | some t =>
              some (.ok (some
                { ip := .v4 ip
                  country := some (t.translate record.country_id "countries")
                  region := some (t.translate record.region_id "regions")
                  city := some (t.translate record.city_id "cities")
                  isp := some (t.translate record.isp_id "isps")
                  country_code := some (strBytes "CN")
                  timezone := some (strBytes "Asia/Shanghai")
                  latitude := none
                  longitude := none }))
            | none => lookup_go data file_size tables ip fuel low high
          else if ip < record.start_ip then
            if mid = 0 then some (.ok none)
            else lookup_go data file_size tables ip fuel low ((mid + 2 ^ 32 - 16) % 2 ^ 32)
          else lookup_go data file_size tables ip fuel ((mid + 16) % 2 ^ 32) high
    else some (.ok none)

/-- Embedding of `IPIPDatabase::lookup_ip_internal_v4`: run the narrowing loop over
`[index_start, index_end]` when a header and buffer are present, else
`Ok(None)`; falling out of the loop is also `Ok(None)`. -/
def lookup_ip_internal_v4 (st : State) (fuel ip : Nat) :
    Option (Except NaliError (Option (GeoLocation (List Nat)))) :=
  match st.header with
  | some header =>
    match st.mmap with
    | some data =>
      lookup_go data st.file_size st.translation_tables ip fuel
        header.index_start header.index_end
    | none => some (.ok none)
  | none => some (.ok none)

/-- Embedding of `IPIPDatabase::load_from_file` (`src/database/ipip/database.rs` lines
169-200) after the memory map step: record the file size, parse the
header (the only fallible step), parse the translation tables, set the
state. No index-bounds validation is performed. -/
def load_from_file (data : List Nat) : Except NaliError State :=
  let file_size := data.length
  match IPIPHeader.parse data with
  | .error e => .error e
  | .ok header =>
    let translation_tables := IPIPTranslationTables.parse data header
    .ok { loaded := true, mmap := some data, file_size := file_size,
          header := some header, translation_tables := some translation_tables,
          ipv6_support := header.support_ipv6 }

/-- The concrete truncated FormatC buffer for C3: a 16-byte file whose
header declares `index_start = 16`, `index_end = 1016` — far beyond the
end of the buffer. -/
def c3Data : List Nat :=
  [0, 0, 0, 0, 0, 0, 0, 0, 16, 0, 0, 0, 248, 3, 0, 0]

/-- The concrete FormatC buffer for C2: header `index_start = 16`,
`index_end = 32`, followed by the single sorted 16-byte record
`[100, 200]` (ids all 0); 32 bytes in total. -/
def c2Data : List Nat :=
  [0, 0, 0, 0, 0, 0, 0, 0, 16, 0, 0, 0, 32, 0, 0, 0,
   100, 0, 0, 0, 200, 0, 0, 0, 0, 0, 0, 0, 0, 0, 0, 0]

end IPIP

/-- Embedding of `CdnEntry` from `src/database/common/entry.rs`. -/
structure CdnEntry where
  name : String
  link : Option String
  deriving Repr, DecidableEq

/-- Embedding of `CdnProvider` from `src/database/mod.rs`. -/
structure CdnProvider where
  domain : String
  provider : String
  description : Option String
  deriving Repr, DecidableEq

/-- Association-list lookup: the model of `HashMap::get`. -/
def lookupAssoc {β : Type} : List (String × β) → String → Option β
  | [], _ => none
  | (k, v) :: rest, key => if k = key then some v else lookupAssoc rest key

/-- Association-list insert-or-replace: the model of `HashMap::insert`. -/
def insertAssoc {β : Type} : List (String × β) → String → β → List (String × β)
  | [], key, v => [(key, v)]
  | (k, w) :: rest, key, v =>
    if k = key then (key, v) :: rest else (k, w) :: insertAssoc rest key v

/-- Model of `str::contains(char)`: any character of the string equals
`c`. (Defined on the character list so that concrete runs evaluate.) -/
def strContainsChar (s : String) (c : Char) : Bool :=
  s.data.contains c

/-- Model of `str::to_lowercase` (ASCII-faithful; the CDN data is ASCII). -/
def strToLower (s : String) : String :=
  String.mk (s.data.map Char.toLower)

/-- Model of `str::split(c)`: segments between occurrences of `c` (empty
segments included). -/
def splitOnChar (c : Char) : List Char → List (List Char)
  | [] => [[]]
  | b :: rest =>
    if b = c then [] :: splitOnChar c rest
    else
      match splitOnChar c rest with
      | [] => [[b]]
      | seg :: segs => (b :: seg) :: segs

/-- Model of `slice::join(".")` on strings. -/
def joinWithDot : List String → String
  | [] => ""
  | [s] => s
  | s :: rest => s ++ "." ++ joinWithDot rest

namespace CDN

/-- Embedding of `extract_base_domain` (`src/database/common/matcher.rs` lines 8-23):
the lowercased full domain plus, when there are at least two dot-separated
labels, the last two labels joined. -/
def extract_base_domain (domain : String) : List String :=
  let parts := (splitOnChar '.' domain.data).map String.mk
  if parts.length ≥ 2 then
    [strToLower domain, strToLower (joinWithDot (parts.drop (parts.length - 2)))]
  else
    [strToLower domain]

/-- The per-character case of `wildcard_to_regex`
(`src/database/common/matcher.rs` lines 27-50): `*` → `.*`, `?` → `.`,
each regex metacharacter escaped, anything else verbatim. -/
def wildcard_escape : Char → String
  | '*' => ".*"
  | '?' => "."
  | '.' => "\\."
  | '\\' => "\\\\"
  | '+' => "\\+"
  | '^' => "\\^"
  | '$' => "\\$"
  | '(' => "\\("
  | ')' => "\\)"
  | '[' => "\\["
  | ']' => "\\]"
  | '\x7b' => "\\\x7b"
  | '\x7d' => "\\\x7d"
  | '|' => "\\|"
  | ch => ch.toString

/-- Embedding of `wildcard_to_regex`: start from `^`, append the escape of each pattern
character, close with `$`. -/
def wildcard_to_regex (pattern : String) : String :=
  (pattern.toList.foldl (fun result ch => result ++ wildcard_escape ch) "^") ++ "$"

/-- Token view of the regex compiled from a wildcard pattern: a literal
character, `.` (any one character), or `.*` (any stretch). -/
inductive RTok where
  | lit (c : Char)
  | anyOne
  | anyStar
  deriving Repr, DecidableEq

/-- Modelled from the spec: the regex crate's matching semantics for the
anchored pattern produced by `wildcard_to_regex` (the crate itself is an
external collaborator). Escaped metacharacters match themselves, `.`
matches any single character, `.*` any stretch, and `^...$` anchors both
ends. (In the crate's default mode `.` excludes newline — irrelevant for
domain inputs.) -/
def rmatch : List RTok → List Char → Bool
  | [], s => s.isEmpty
  | .lit c :: ts, s =>
    match s with
    | [] => false
    | d :: ds => c == d && rmatch ts ds
  | .anyOne :: ts, s =>
    match s with
    | [] => false
    | _ :: ds => rmatch ts ds
  | .anyStar :: ts, s => s.tails.any fun suf => rmatch ts suf

/-- The token view of the wildcard pattern, character for character the
image of `wildcard_escape` under the regex semantics. -/
def wildcard_toks (pattern : String) : List RTok :=
  pattern.toList.map fun ch =>
    if ch = '*' then .anyStar else if ch = '?' then .anyOne else .lit ch

/-- A compiled `Regex` value: either the compilation of a wildcard
pattern (kept as its token view) or of a raw author-supplied pattern (kept
as the pattern text; its matching semantics stay an external oracle). -/
inductive CompiledRegex where
  | fromWildcard (toks : List RTok)
  | fromRaw (pattern : String)
  deriving Repr, DecidableEq

/-- Embedding of `Regex::is_match`: wildcard-compiled patterns use the token semantics;
raw patterns defer to the external-engine oracle `dirMatch`. -/
def regex_is_match (dirMatch : String → String → Bool) :
    CompiledRegex → String → Bool
  | .fromWildcard toks, s => rmatch toks s.toList
  | .fromRaw pattern, s => dirMatch pattern s

/-- Embedding of `CDNDatabase` state (`src/database/common/database.rs`): the exact map
and the ordered regex list. -/
structure CDNDatabase where
  loaded : Bool
  exact_matches : List (String × CdnEntry)
  regex_matches : List (CompiledRegex × CdnEntry)
  deriving Repr, DecidableEq

/-- The classification result of one pattern in
`CDNDatabase::parse_yaml`. -/
inductive PatternClass where
  | wildcardRegex (r : String)
  | directRegex (r : String)
  | exactKey (k : String)
  deriving Repr, DecidableEq

/-- The classification decision of `CDNDatabase::parse_yaml`
(`src/database/common/database.rs` lines 39-70): wildcard characters →
compile `wildcard_to_regex`; else raw regex metacharacters → compile the
pattern text itself; else an exact key, lowercased. -/
def classify_pattern (pattern : String) : PatternClass :=
  if strContainsChar pattern '*' || strContainsChar pattern '?' then
    .wildcardRegex (wildcard_to_regex pattern)
  else if strContainsChar pattern '[' || strContainsChar pattern '+' ||
      strContainsChar pattern '(' || strContainsChar pattern '\x7b' then
    .directRegex pattern
  else
    .exactKey (strToLower pattern)

/-- The metacharacter list named by the specification:
`. \ + ^ $ ( ) [ ] { } |`. -/
def spec_metachars : List Char :=
  ['.', '\\', '+', '^', '$', '(', ')', '[', ']', '\x7b', '\x7d', '|']

/-- The specification's wording of the per-character translation: `*` to
`.*`, `?` to `.`, a metacharacter escaped with a backslash, anything else
verbatim. -/
def spec_escape (ch : Char) : String :=
  if ch = '*' then ".*"
  else if ch = '?' then "."
  else if spec_metachars.contains ch then "\\" ++ ch.toString
  else ch.toString

/-- The specification's wording of the compiled wildcard pattern: the
per-character translations concatenated, the whole wrapped in `^...$`. -/
def spec_wildcard_regex (p : String) : String :=
  (p.toList.foldl (fun r ch => r ++ spec_escape ch) "^") ++ "$"

/-- The specification's wording of the load-time classification (the same
three-way split, with the compiled wildcard regex spelled per its escape
list). -/
def spec_classify_pattern (pattern : String) : PatternClass :=
  if strContainsChar pattern '*' || strContainsChar pattern '?' then
    .wildcardRegex (spec_wildcard_regex pattern)
  else if strContainsChar pattern '[' || strContainsChar pattern '+' ||
      strContainsChar pattern '(' || strContainsChar pattern '\x7b' then
    .directRegex pattern
  else
    .exactKey (strToLower pattern)

/-- One loop iteration of `CDNDatabase::parse_yaml`: insert per the
classification; a pattern whose regex fails to compile (`compileOk`
models `Regex::new`'s success) is logged and dropped. -/
def process_pattern (compileOk : String → Bool) (db : CDNDatabase)
    (pe : String × CdnEntry) : CDNDatabase :=
  match classify_pattern pe.1 with
  | .wildcardRegex r =>
    if compileOk r then
      { db with regex_matches := db.regex_matches ++ [(.fromWildcard (wildcard_toks pe.1), pe.2)] }
    else db
  | .directRegex r =>
    if compileOk r then
      { db with regex_matches := db.regex_matches ++ [(.fromRaw r, pe.2)] }
    else db
  | .exactKey k =>
    { db with exact_matches := insertAssoc db.exact_matches k pe.2 }

/-- Embedding of `CDNDatabase::parse_yaml` after the YAML deserialization step (an
external collaborator; `entries` is the parsed pattern → entry map in
iteration order): fold the per-pattern classification into the fresh
database. The loop itself never fails. -/
def parse_yaml (compileOk : String → Bool) (entries : List (String × CdnEntry)) :
    Except NaliError CDNDatabase :=
  .ok (entries.foldl (process_pattern compileOk) ⟨false, [], []⟩)

/-- Embedding of `CDNDatabase::load_from_file` after the file read: parse the YAML,
then mark the database loaded. -/
def load_from_file (compileOk : String → Bool) (entries : List (String × CdnEntry)) :
    Except NaliError CDNDatabase :=
  match parse_yaml compileOk entries with
  | .error e => .error e
  | .ok db => .ok { db with loaded := true }

/-- The candidate loop of `CDNDatabase::lookup_cdn`: first exact hit over
the base-domain candidates. -/
def find_candidate (exact : List (String × CdnEntry)) : List String → Option CdnEntry
  | [] => none
  | c :: cs =>
    match lookupAssoc exact c with
    | some e => some e
    | none => find_candidate exact cs

/-- Embedding of `match_regex` (`src/database/common/matcher.rs` lines 53-63): linear
scan in load order, first match wins. -/
def match_regex (dirMatch : String → String → Bool) (domain : String) :
    List (CompiledRegex × CdnEntry) → Option CdnEntry
  | [] => none
  | (rx, entry) :: rest =>
    if regex_is_match dirMatch rx domain then some entry
    else match_regex dirMatch domain rest

/-- Embedding of `CDNDatabase::lookup_cdn` (`src/database/common/database.rs` lines
102-141): loaded check, then exact map on the lowercased domain, then the
base-domain candidates against the exact map, then the regex list; the
returned provider carries the original queried domain. -/
def lookup_cdn (dirMatch : String → String → Bool) (db : CDNDatabase)
    (domain : String) : Except NaliError (Option CdnProvider) :=
  if ¬ db.loaded then .error (.DatabaseNotLoaded "cdn")
  else
    let domain_lower := strToLower domain
    match lookupAssoc db.exact_matches domain_lower with
    | some entry => .ok (some ⟨domain, entry.name, entry.link⟩)
    | none =>
      match find_candidate db.exact_matches (extract_base_domain domain_lower) with
      | some entry => .ok (some ⟨domain, entry.name, entry.link⟩)
      | none =>
        match match_regex dirMatch domain_lower db.regex_matches with
        | some entry => .ok (some ⟨domain, entry.name, entry.link⟩)
        | none => .ok none

/-- The loaded single-pattern database of C6: pattern `*.example.com`. -/
def c6Entry : CdnEntry := ⟨"Example CDN", none⟩

/-- C6's database containing only the wildcard pattern `*.example.com`. -/
def c6Db : CDNDatabase :=
  match load_from_file (fun _ => true) [("*.example.com", c6Entry)] with
  | .ok db => db
  | .error _ => ⟨false, [], []⟩

/-- C6's database containing only the plain pattern `cloudflare.com`. -/
def c6DbCf : CDNDatabase :=
  match load_from_file (fun _ => true) [("cloudflare.com", ⟨"Cloudflare", none⟩)] with
  | .ok db => db
  | .error _ => ⟨false, [], []⟩

end CDN

namespace Manager

/-- Embedding of `DatabaseType` from `src/database/mod.rs`. -/
inductive DatabaseType where
  | QQwry
  | ZXIPv6Wry
  | GeoIP2
  | IPIP
  | IP2Region
  | DBIP
  | IP2Location
  | CDN
  deriving Repr, DecidableEq

/-- Embedding of `DatabaseManager::get_database_type` (`src/database/manager.rs` lines
213-228): the name/alias table. -/
def get_database_type (name : String) : Except NaliError DatabaseType :=
  if name = "qqwry" ∨ name = "chunzhen" then .ok .QQwry
  else if name = "zxipv6wry" ∨ name = "zxipv6" then .ok .ZXIPv6Wry
  else if name = "geoip" ∨ name = "geoip2" ∨ name = "geolite" then .ok .GeoIP2
  else if name = "ipip" then .ok .IPIP
  else if name = "ip2region" then .ok .IP2Region
  else if name = "dbip" then .ok .DBIP
  else if name = "ip2location" then .ok .IP2Location
  else if name = "cdn" then .ok .CDN
  else .error (.DatabaseNotFound ("Unknown database type: " ++ name))

/-- Embedding of `CachedResult` from `src/database/manager.rs`, generic in the
geolocation payload. -/
inductive CachedResult (G : Type) where
  | GeoLocation (r : Option G)
  | CdnProvider (r : Option CdnProvider)
  deriving Repr, DecidableEq

/-- The observable side effects of the manager's load path, recorded so
the theorems can say "no file I/O, construction, download, insertion or
lookup dispatch happened". -/
inductive Eff where
  | construct
  | download
  | fileLoad
  | insertDb
  | dispatchLookup
  deriving Repr, DecidableEq

/-- The manager's external collaborators (`src/database/manager.rs`):
configuration lookups, the filesystem, the downloader, the database
factory + `load_from_file`, and the handles' `lookup_ip`. `H` is the
handle type, `G` the geolocation result type. -/
structure Env (H G : Type) where
  ipv4_database : String
  ipv6_database : String
  get_database_path : String → Except NaliError String
  path_exists : String → Bool
  has_db_info : String → Bool
  has_download_urls : String → Bool
  download_database : String → Except NaliError Unit
  create : DatabaseType → H
  load_file : H → String → Except NaliError H
  lookup_ip : H → Ip → Except NaliError (Option G)
  show_ip : Ip → String

/-- The manager's guarded maps: name → handle and query key → cached
result. The locks themselves serialize map access and carry no state. -/
structure MState (H G : Type) where
  databases : List (String × H)
  query_cache : List (String × CachedResult G)
  deriving DecidableEq

/-- The tail of `DatabaseManager::get_or_load_database`:
`db.load_from_file(path)?` followed by the insertion into the handle map. -/
def load_and_store {H G : Type} (env : Env H G) (st : MState H G)
    (name : String) (db : H) (db_path : String) (effs : List Eff) :
    Except NaliError Unit × MState H G × List Eff :=
  match env.load_file db db_path with
  | .error e => (.error e, st, effs ++ [Eff.fileLoad])
  | .ok loadedDb =>
    (.ok (), { st with databases := insertAssoc st.databases name loadedDb },
      effs ++ [Eff.fileLoad, Eff.insertDb])

/-- Embedding of `DatabaseManager::get_or_load_database` (`src/database/manager.rs`
lines 46-110) for one sequential call: an already-present name returns
immediately; otherwise the factory constructs a fresh handle, the path is
resolved, a missing file triggers the download decision tree, the file is
loaded, and the handle is inserted. The effect list records what the call
performed. -/
def get_or_load_database {H G : Type} (env : Env H G) (st : MState H G)
    (name : String) (db_type : DatabaseType) :
    Except NaliError Unit × MState H G × List Eff :=
  match lookupAssoc st.databases name with
  | some _ => (.ok (), st, [])
  | none =>
    let db := env.create db_type
    match env.get_database_path name with
    | .error e => (.error e, st, [Eff.construct])
    | .ok db_path =>
      if ¬ env.path_exists db_path then
        if env.has_db_info name then
          if env.has_download_urls name then
            match env.download_database name with
            | .error e => (.error e, st, [Eff.construct, Eff.download])
            | .ok _ => load_and_store env st name db db_path [Eff.construct, Eff.download]
          else
            (.error (.DatabaseNotFound
              ("Database file not found and cannot be auto-downloaded: " ++ db_path)),
              st, [Eff.construct])
        else
          (.error (.DatabaseNotFound ("Database file not found: " ++ db_path)),
            st, [Eff.construct])
      else
        load_and_store env st name db db_path [Eff.construct]

/-- Embedding of `DatabaseManager::query_ip` (`src/database/manager.rs` lines 130-171)
for one sequential call: check the cache under `"ip:" + address` (only a
`GeoLocation`-variant hit returns), select the configured database name by
address family, ensure it is loaded, dispatch `lookup_ip` on the stored
handle (a missing handle yields `None` without a dispatch), then cache the
result — including a `None` — under the same key. -/
def query_ip {H G : Type} (env : Env H G) (st : MState H G) (ip : Ip) :
    Except NaliError (Option G) × MState H G × List Eff :=
  let cache_key := "ip:" ++ env.show_ip ip
  match lookupAssoc st.query_cache cache_key with
  | some (.GeoLocation result) => (.ok result, st, [])
  | _ =>
    let db_name := match ip with
      | .v4 _ => env.ipv4_database
      | .v6 _ => env.ipv6_database
    match get_database_type db_name with
    | .error e => (.error e, st, [])
    | .ok db_type =>
      match get_or_load_database env st db_name db_type with
      | (.error e, st1, effs) => (.error e, st1, effs)
      | (.ok _, st1, effs) =>
        match lookupAssoc st1.databases db_name with
        | some db =>
          match env.lookup_ip db ip with
          | .error e => (.error e, st1, effs ++ [Eff.dispatchLookup])
          | .ok result =>
            let cache1 := insertAssoc st1.query_cache cache_key (.GeoLocation result)
            (.ok result, { st1 with query_cache := cache1 }, effs ++ [Eff.dispatchLookup])
        | none =>
          let cache1 := insertAssoc st1.query_cache cache_key (.GeoLocation none)
          (.ok none, { st1 with query_cache := cache1 }, effs)

end Manager

/-- Truncated FormatA buffer for the C3 witness: 8 bytes declaring
`idx_start = 16`, `idx_end = 100`. -/
def qqwryTruncData : List Nat := [16, 0, 0, 0, 100, 0, 0, 0]

/-- Truncated FormatB buffer for the C3 witness: a 24-byte header
(`IPDB`, count = 2, idx_start = 24) whose declared index end 24 + 2·11 =
46 lies beyond the buffer. -/
def zxTruncData : List Nat :=
  [73, 80, 68, 66, 0, 0, 3, 8,
   2, 0, 0, 0, 0, 0, 0, 0,
   24, 0, 0, 0, 0, 0, 0, 0]

/-- The explicit state `IPIP.load_from_file c2Data` produces (C2). -/
def c2State : IPIP.State :=
  { loaded := true, mmap := some IPIP.c2Data, file_size := 32,
    header := some { version := 0, created_time := 0, index_start := 16,
                     index_end := 32, support_ipv6 := false },
    translation_tables := some ⟨[], [], [], []⟩,
    ipv6_support := false }

/-- A minimal valid FormatB (ZXIPv6) file for the C7 witness: one index
entry at byte 24 with key 2 and payload offset 43, where a literal record
(country byte 72, area byte 75) lies. -/
def c7Data : List Nat :=
  [73, 80, 68, 66, 0, 0, 3, 8,
   1, 0, 0, 0, 0, 0, 0, 0,
   24, 0, 0, 0, 0, 0, 0, 0,
   2, 0, 0, 0, 0, 0, 0, 0,
   43, 0, 0,
   0, 0, 0, 0, 0, 0, 0, 1,
   72, 0, 75, 0]

/-- The explicit state `ZX.load_from_file c7Data` produces. -/
def c7State : ZX.State :=
  { loaded := true, mmap := some c7Data, idx_start := 24, idx_end := 35,
    off_len := 3, ip_len := 8 }

/-- The record the C7 witness lookup returns: country [72], area [75],
address = prefix 2 shifted into the high 64 bits. -/
def c7Rec : GeoLocation (List Nat) :=
  { ip := .v6 (2 * 2 ^ 64), country := some [72], region := none,
    city := none, isp := some [75], country_code := none, timezone := none,
    latitude := none, longitude := none }

/-- Concrete manager environment for the C8/C9 witnesses (handles and
geolocation payloads are bare numbers). -/
def c8Env : Manager.Env Nat Nat :=
  { ipv4_database := "qqwry"
    ipv6_database := "zxipv6wry"
    get_database_path := fun _ => .ok "/data/qqwry.dat"
    path_exists := fun _ => true
    has_db_info := fun _ => true
    has_download_urls := fun _ => false
    download_database := fun _ => .ok ()
    create := fun _ => 0
    load_file := fun _ _ => .ok 5
    lookup_ip := fun _ _ => .ok (some 42)
    show_ip := fun ip => match ip with | .v4 _ => "4" | .v6 _ => "6" }

/-- Manager state with the `qqwry` handle already loaded (C8 witness). -/
def c8St : Manager.MState Nat Nat := ⟨[("qqwry", 5)], []⟩

/-- The state after the C9 witness's first `query_ip` call: handle loaded
and the result cached under `ip:1`. -/
def c9Stp : Manager.MState Nat Nat :=
  ⟨[("qqwry", 5)], [("ip:4", .GeoLocation (some 42))]⟩

-- THEOREMS-SPLIT --

namespace Reader

lemma lenToZero_append (x r : List Nat) (hx : ∀ b ∈ x, b ≠ 0) :
    lenToZero (x ++ 0 :: r) = x.length := by
  induction x with
  | nil => simp [lenToZero]
  | cons b rest ih =>
    have hb : b ≠ 0 := hx b (by simp)
    have ih' := ih (fun c hc => hx c (by simp [hc]))
    simp [lenToZero, hb, ih']

lemma read_string_of_drop (data : List Nat) (st : RState) (adv : Bool)
    (x r : List Nat) (hd : data.drop st.pos = x ++ 0 :: r)
    (hx : ∀ b ∈ x, b ≠ 0) :
    (read_string data st adv).1 = x := by
  simp only [read_string, hd, lenToZero_append x r hx]
  cases adv <;> simp [List.take_append]

end Reader

namespace QQwry

lemma search_index_go_floor (data : List Nat) (ip s n j : Nat)
    (hmono : ∀ i1 i2, i1 < i2 → i2 < n → entry_key data s i1 < entry_key data s i2)
    (hjn : j < n)
    (hle : entry_key data s j ≤ ip)
    (hmax : ∀ i, i < n → entry_key data s i ≤ ip → i ≤ j) :
    ∀ fuel a b, a < b → b < n → b - a ≤ fuel →
      entry_key data s a ≤ ip → ip ≤ entry_key data s b →
      search_index_go data ip fuel (s + 7 * a) (s + 7 * b) =
        some (entry_payload data s j) := by
  intro fuel
  induction fuel with
  | zero =>
    intro a b hab _ hba _ _
    omega
  | succ f ih =>
    intro a b hab hbn hfuel ha hb
    have hmid : (s + 7 * b - (s + 7 * a)) / 7 / 2 * 7 + (s + 7 * a) =
        s + 7 * (a + (b - a) / 2) := by
      have h1 : s + 7 * b - (s + 7 * a) = 7 * (b - a) := by omega
      rw [h1, Nat.mul_div_cancel_left _ (by norm_num : 0 < 7)]
      omega
    rw [search_index_go]
    simp only [hmid]
    by_cases hba1 : b - a = 1
    · have h7 : s + 7 * b - (s + 7 * a) = 7 := by omega
      rw [if_pos h7]
      have hma : a + (b - a) / 2 = a := by omega
      rw [hma]
      by_cases hge : readU32LE data (s + 7 * b) ≤ ip
      · -- target at or above the right boundary: answer is entry b
        have hjb : j = b := by
          have h1 : b ≤ j := hmax b hbn hge
          by_contra hne
          have h2 : b < j := by omega
          have := hmono b j h2 hjn
          have : entry_key data s b ≤ ip := hge
          omega
        rw [if_pos hge, hjb]
        rfl
      · -- target strictly below the right boundary: answer is entry a
        have hja : j = a := by
          have h1 : a ≤ j := hmax a (by omega) ha
          by_contra hne
          have h2 : a < j := by omega
          have h3 : entry_key data s b ≤ entry_key data s j := by
            rcases Nat.lt_or_ge b j with h | h
            · exact le_of_lt (hmono b j h hjn)
            · have : b = j := by omega
              rw [this]
          have : entry_key data s b ≤ ip := le_trans h3 hle
          exact hge this
        rw [if_neg hge, hja]
        rfl
    · have hba2 : 2 ≤ b - a := by omega
      have h7 : ¬ (s + 7 * b - (s + 7 * a) = 7) := by omega
      rw [if_neg h7]
      set m := a + (b - a) / 2 with hm
      have ham : a < m := by omega
      have hmb : m < b := by omega
      have hkey : readU32LE data (s + 7 * m) = entry_key data s m := rfl
      by_cases hlt : ip < readU32LE data (s + 7 * m)
      · rw [if_pos hlt]
        exact ih a m ham (by omega) (by omega) ha (by rw [hkey] at hlt; exact le_of_lt hlt)
      · rw [if_neg hlt]
        by_cases hgt : readU32LE data (s + 7 * m) < ip
        · rw [if_pos hgt]
          exact ih m b hmb hbn (by omega) (by rw [hkey] at hgt; exact le_of_lt hgt) hb
        · rw [if_neg hgt]
          have heq : entry_key data s m = ip := by
            rw [← hkey]; omega
          have hjm : j = m := by
            have h1 : m ≤ j := hmax m (by omega) (le_of_eq heq)
            by_contra hne
            have h2 : m < j := by omega
            have := hmono m j h2 hjn
            omega
          rw [hjm]
          rfl

/-- Claim C1: for a FormatA (QQwry) index region of `n` 7-byte entries
starting at byte `s` (so the region's inclusive right boundary is the last
entry's start `s + 7*(n-1)`), with keys strictly ascending and the target
within the region's key range, `search_index` returns the 3-byte payload of
the entry whose key is the greatest key ≤ the target — via the truncating
entry-aligned midpoint, the exact-hit short-circuit and the terminal
right-boundary comparison embodied in `search_index_go`. -/
theorem qqwry_search_index_floor (data : List Nat) (ip s n j fuel : Nat)
    (hn : 0 < n) (hfuel : n ≤ fuel)
    (hlen : s + 7 * (n - 1) + 7 ≤ data.length)
    (hmono : ∀ i1 i2, i1 < i2 → i2 < n → entry_key data s i1 < entry_key data s i2)
    (hjn : j < n)
    (hle : entry_key data s j ≤ ip)
    (hmax : ∀ i, i < n → entry_key data s i ≤ ip → i ≤ j)
    (hhigh : ip ≤ entry_key data s (n - 1)) :
    search_index_go data ip fuel s (s + 7 * (n - 1)) =
      some (entry_payload data s j) := by
  rcases Nat.lt_or_ge 1 n with hn2 | hn1
  · -- at least two entries: run the loop invariant lemma on [0, n-1]
    have hlow : entry_key data s 0 ≤ ip := by
      rcases Nat.eq_zero_or_pos j with hj0 | hjpos
      · rw [← hj0]; exact hle
      · exact le_trans (le_of_lt (hmono 0 j hjpos hjn)) hle
    have := search_index_go_floor data ip s n j hmono hjn hle hmax fuel 0 (n - 1)
      (by omega) (by omega) (by omega) hlow hhigh
    simpa using this
  · -- a single entry: the target must hit its key exactly
    have hn1' : n = 1 := by omega
    have hj0 : j = 0 := by omega
    subst hn1' hj0
    have hhigh0 : ip ≤ entry_key data s 0 := by simpa using hhigh
    have heq : entry_key data s 0 = ip := by omega
    obtain ⟨f, hf⟩ : ∃ f, fuel = f + 1 := ⟨fuel - 1, by omega⟩
    subst hf
    rw [search_index_go]
    have hmid : (s + 7 * (1 - 1) - s) / 7 / 2 * 7 + s = s := by
      simp
    simp only [hmid]
    have h7 : ¬ (s + 7 * (1 - 1) - s = 7) := by omega
    rw [if_neg h7]
    have hk : readU32LE data s = ip := by
      have : entry_key data s 0 = readU32LE data s := by
        unfold entry_key
        norm_num
      omega
    rw [hk]
    simp [entry_payload]

/-- Witness for C1: on the 3-entry region with keys 10 < 20 < 30 and target
25 the search returns the payload of entry 1 (the greatest key ≤ 25), which
is 2. -/
theorem qqwry_search_index_floor_witness :
    search_index_go c1Data 25 3 0 (0 + 7 * (3 - 1)) = some (entry_payload c1Data 0 1) ∧
      entry_payload c1Data 0 1 = 2 := by
  constructor
  · exact qqwry_search_index_floor c1Data 25 0 3 1 3
      (by decide) (by decide) (by decide)
      (by
        intro i1 i2 h1 h2
        interval_cases i2 <;> interval_cases i1 <;> decide)
      (by decide) (by decide)
      (by
        intro i hi hki
        interval_cases i <;> revert hki <;> decide)
      (by decide)
  · decide


end QQwry

namespace Reader

/-- Claim C4: redirect-mode correctness of the pointer-chasing decoder.
(a) A record whose mode byte is 1, followed by a 3-byte offset pointing at
a literal (non-redirect) record, decodes to the same (country, area) pair
as parsing that literal record directly (the full redirect consumes one
unit of fuel). (b) A record whose mode byte is 2 decodes the country "X"
at the pointed-to location, then the undo register restores the cursor to
just after the 3-byte offset field, so the literal area "Y" found there is
decoded, giving (country = X, area = Y). -/
theorem reader_redirect_modes :
    (∀ (data : List Nat) (off1 off2 f : Nat),
        byteAt data off1 = 1 →
        bytes3_to_u32 data (off1 + 1) = off2 →
        byteAt data off2 ≠ 1 → byteAt data off2 ≠ 2 →
        parse data (f + 1) init off1 = parse data f init off2) ∧
    (∀ (data : List Nat) (off offC f : Nat) (x y rest1 rest2 : List Nat),
        byteAt data off = 2 →
        bytes3_to_u32 data (off + 1) = offC →
        data.drop offC = x ++ 0 :: rest1 →
        (∀ b ∈ x, b ≠ 0) →
        data.drop (off + 4) = y ++ 0 :: rest2 →
        (∀ b ∈ y, b ≠ 0) →
        byteAt data (off + 4) ≠ 1 → byteAt data (off + 4) ≠ 2 →
        parse data f init off = some (x, y)) := by
  constructor
  · intro data off1 off2 f h1 hoff hn1 hn2
    have hseek1 : (if off1 ≠ 0 then seek_abs init off1 else init) =
        ({ pos := off1, last_pos := 0 } : RState) := by
      by_cases h : off1 = 0 <;> simp [h, seek_abs, init]
    have hseek2 : (if off2 ≠ 0 then seek_abs init off2 else init) =
        ({ pos := off2, last_pos := 0 } : RState) := by
      by_cases h : off2 = 0 <;> simp [h, seek_abs, init]
    rw [parse, parse]
    simp only [hseek1, hseek2, read_mode, read_offset, seek_back, h1, hoff]
    norm_num
    rw [parse]
    simp only [read_mode, seek_back, hn1, hn2]
    simp [hn1, hn2]
  · intro data off offC f x y rest1 rest2 h2 hoff hcx hx hcy hy hn1 hn2
    have hseek : (if off ≠ 0 then seek_abs init off else init) =
        ({ pos := off, last_pos := 0 } : RState) := by
      by_cases h : off = 0 <;> simp [h, seek_abs, init]
    rw [parse]
    simp only [hseek, read_mode, h2]
    norm_num
    simp only [parse_redirect_mode2, read_offset, hoff, seek_back]
    have hcountry :
        (read_string data ({ pos := offC, last_pos := off + 1 + 3 } : RState) false).1 = x :=
      read_string_of_drop _ _ _ x rest1 hcx hx
    have harea :
        read_area data ({ pos := off + 1 + 3, last_pos := off + 1 + 3 } : RState) =
          (read_string data ({ pos := off + 1 + 3, last_pos := off + 1 + 3 } : RState) false) := by
      have hoff4 : off + 1 + 3 = off + 4 := by omega
      simp only [read_area, read_mode, hoff4, seek_back]
      simp [hn1, hn2]
    have harea1 :
        (read_string data ({ pos := off + 1 + 3, last_pos := off + 1 + 3 } : RState) false).1 = y := by
      apply read_string_of_drop _ _ _ y rest2 _ hy
      show data.drop (off + 1 + 3) = y ++ 0 :: rest2
      have : off + 1 + 3 = off + 4 := by omega
      rw [this]
      exact hcy
    simp [read_string] at hcountry harea1
    simp [harea, read_string, hcountry, harea1]

/-- Witness for C4: on `c4DataA` the mode-1 record at offset 1 decodes like
the literal record at offset 8; on `c4DataB` the mode-2 record at offset 1
decodes to country [88] ("X") and area [89] ("Y"). -/
theorem reader_redirect_modes_witness :
    parse c4DataA 1 init 1 = parse c4DataA 0 init 8 ∧
      parse c4DataB 0 init 1 = some ([88], [89]) := by
  constructor
  · exact reader_redirect_modes.1 c4DataA 1 8 0 (by decide) (by decide)
      (by decide) (by decide)
  · exact reader_redirect_modes.2 c4DataB 1 10 0 [88] [89] [0] [0, 0, 0, 88, 0, 0]
      (by decide) (by decide) (by decide) (by decide) (by decide) (by decide)
      (by decide) (by decide)

end Reader

/-- Claim C10: a reader asked for an address family it does not support
answers `Ok(None)` without error, in every handle state: the FormatA
(QQwry) handle for every IPv6 address, and the FormatB (ZXIPv6) handle for
every IPv4 address. -/
theorem lookup_ip_unsupported_family :
    (∀ (st : QQwry.State) (sFuel pFuel n : Nat),
        QQwry.lookup_ip st sFuel pFuel (.v6 n) = some (.ok none)) ∧
    (∀ (st : ZX.State) (sFuel pFuel n : Nat),
        ZX.lookup_ip st sFuel pFuel (.v4 n) = some (.ok none)) :=
  ⟨fun _ _ _ _ => rfl, fun _ _ _ _ => rfl⟩

/-- Counterexample to C3 as stated: FormatC (IPIP) does not reject a file
shorter than its declared index end. The 16-byte buffer `c3Data` declares
`index_end = 1016`, far beyond its own length, yet `load_from_file`
succeeds. -/
theorem ipip_truncated_load_succeeds :
    IPIP.c3Data.length = 16 ∧ readU32LE IPIP.c3Data 12 = 1016 ∧
      (IPIP.load_from_file IPIP.c3Data).isOk = true := by
  decide

/-- Claim C3 (amended): a buffer shorter than the index-region end its own
header declares is rejected by FormatA's and FormatB's loaders (the bound
being the value the source's wrapping `u32`/`u64` arithmetic computes:
`idx_end + 7` for FormatA, `idx_start + count·11` for FormatB), while
FormatC's loader performs no index-end validation at all — any buffer with
the 16-byte header loads successfully. -/
theorem truncated_load_validation :
    (∀ data : List Nat, data.length < (readU32LE data 4 + 7) % 2 ^ 32 →
        QQwry.load_from_file data =
          .error (.ParseError "Invalid QQwry database: file too small") ∨
        QQwry.load_from_file data =
          .error (.ParseError "Invalid QQwry database: header validation failed")) ∧
    (∀ data : List Nat,
        data.length < (readU64LE data 16 + readU64LE data 8 * 11) % 2 ^ 64 →
        ZX.load_from_file data =
          .error (.ParseError "Invalid ZX IPv6 database: file validation failed")) ∧
    (∀ data : List Nat, 16 ≤ data.length →
        ∃ st, IPIP.load_from_file data = .ok st ∧ st.loaded = true) := by
  refine ⟨fun data hlen => ?_, fun data hlen => ?_, fun data hlen => ?_⟩
  · by_cases h8 : data.length < 8
    · left
      simp [QQwry.load_from_file, h8]
    · right
      simp only [QQwry.load_from_file, h8, if_false, if_neg h8]
      rw [if_pos (Or.inr hlen)]
  · have hcheck : ZX.check_file data = false := by
      by_cases h4 : data.length < 4
      · simp [ZX.check_file, h4]
      · by_cases hmagic : data.take 4 ≠ [73, 80, 68, 66]
        · simp [ZX.check_file, h4, hmagic]
        · by_cases h24 : data.length < 24
          · simp [ZX.check_file, h4, hmagic, h24]
          · simp only [ZX.check_file, h4, hmagic, h24, if_false, if_neg h4,
              if_neg hmagic, if_neg h24]
            rw [if_pos (Or.inr hlen)]
    simp [ZX.load_from_file, hcheck]
  · have h16 : ¬ data.length < 16 := by omega
    simp only [IPIP.load_from_file, IPIP.IPIPHeader.parse, if_neg h16]
    exact ⟨_, rfl, rfl⟩

/-- Witness for C3 (amended): the truncated FormatA buffer and the
truncated FormatB buffer are rejected; the truncated FormatC buffer
`c3Data` loads. -/
theorem truncated_load_validation_witness :
    (QQwry.load_from_file qqwryTruncData =
        .error (.ParseError "Invalid QQwry database: file too small") ∨
      QQwry.load_from_file qqwryTruncData =
        .error (.ParseError "Invalid QQwry database: header validation failed")) ∧
    ZX.load_from_file zxTruncData =
      .error (.ParseError "Invalid ZX IPv6 database: file validation failed") ∧
    (∃ st, IPIP.load_from_file IPIP.c3Data = .ok st ∧ st.loaded = true) :=
  ⟨truncated_load_validation.1 qqwryTruncData (by decide),
   truncated_load_validation.2.1 zxTruncData (by decide),
   truncated_load_validation.2.2 IPIP.c3Data (by decide)⟩

/-- Claim C2, at the failing input (the code is the bug): `c2Data` is a
loaded FormatC database holding the single (hence sorted) record
[100, 200]; the target 150 lies inside that record's inclusive range, yet
`lookup_ip_internal_v4` answers `Ok(None)` for every fuel — the byte-offset
midpoint `(16 + 32) / 2 = 24` is not entry-aligned, the probe at 24 reads
past the record and the `mid + 16 > file_size` guard exits the loop. -/
theorem ipip_lookup_misses_containing_record :
    IPIP.load_from_file IPIP.c2Data = .ok c2State ∧
    IPIP.IPIPRecord.parse IPIP.c2Data 16 =
      .ok { start_ip := 100, end_ip := 200, country_id := 0, region_id := 0,
            city_id := 0, isp_id := 0 } ∧
    (100 ≤ 150 ∧ 150 ≤ 200) ∧
    ∀ fuel, IPIP.lookup_ip_internal_v4 c2State (fuel + 1) 150 = some (.ok none) := by
  refine ⟨by decide, by decide, by decide, fun fuel => ?_⟩
  show IPIP.lookup_go IPIP.c2Data 32 (some ⟨[], [], [], []⟩) 150 (fuel + 1) 16 32 =
    some (.ok none)
  rw [IPIP.lookup_go]
  norm_num

/-- Claim C7: FormatB (ZXIPv6) lookups depend only on the first 64 bits of
the queried IPv6 address — two addresses with the same upper half give
identical results in every state — and the address carried by a returned
record is the queried address with its lower 64 bits zeroed. -/
theorem zx_lookup_prefix_only :
    (∀ (st : ZX.State) (sFuel pFuel a b : Nat),
        a < 2 ^ 128 → b < 2 ^ 128 → a / 2 ^ 64 = b / 2 ^ 64 →
        ZX.lookup_ip st sFuel pFuel (.v6 a) = ZX.lookup_ip st sFuel pFuel (.v6 b)) ∧
    (∀ (st : ZX.State) (sFuel pFuel a : Nat) (geo : GeoLocation (List Nat)),
        a < 2 ^ 128 →
        ZX.lookup_ip st sFuel pFuel (.v6 a) = some (.ok (some geo)) →
        geo.ip = .v6 (a / 2 ^ 64 * 2 ^ 64)) := by
  constructor
  · intro st sFuel pFuel a b _ _ hab
    show ZX.lookup_ipv6 st sFuel pFuel (a / 2 ^ 64 % 2 ^ 64) =
      ZX.lookup_ipv6 st sFuel pFuel (b / 2 ^ 64 % 2 ^ 64)
    rw [hab]
  · intro st sFuel pFuel a geo ha h
    have hdiv : a / 2 ^ 64 < 2 ^ 64 := by omega
    have h' : ZX.lookup_ipv6 st sFuel pFuel (a / 2 ^ 64) = some (.ok (some geo)) := by
      rw [← Nat.mod_eq_of_lt hdiv]
      exact h
    unfold ZX.lookup_ipv6 at h'
    split at h'
    · split at h'
      · simp at h'
      · split at h'
        · simp at h'
        · simp only [Option.some.injEq, Except.ok.injEq] at h'
          rw [← h']
          show Ip.v6 (a / 2 ^ 64 % 2 ^ 64 * 2 ^ 64) = Ip.v6 (a / 2 ^ 64 * 2 ^ 64)
          rw [Nat.mod_eq_of_lt hdiv]
    · simp at h'

/-- Witness for C7: in the loaded one-entry database `c7State`, the
addresses 2·2⁶⁴+7 and 2·2⁶⁴+9 (equal upper halves) give the same result,
and the returned record's address is 2·2⁶⁴ — the lower half zeroed. -/
theorem zx_lookup_prefix_only_witness :
    ZX.lookup_ip c7State 1 1 (.v6 (2 * 2 ^ 64 + 7)) =
      ZX.lookup_ip c7State 1 1 (.v6 (2 * 2 ^ 64 + 9)) ∧
    c7Rec.ip = .v6 ((2 * 2 ^ 64 + 7) / 2 ^ 64 * 2 ^ 64) :=
  ⟨zx_lookup_prefix_only.1 c7State 1 1 (2 * 2 ^ 64 + 7) (2 * 2 ^ 64 + 9)
      (by decide) (by decide) (by decide),
   zx_lookup_prefix_only.2 c7State 1 1 (2 * 2 ^ 64 + 7) c7Rec (by decide)
      (by decide)⟩

namespace CDN

lemma wildcard_escape_eq_spec (ch : Char) :
    wildcard_escape ch = spec_escape ch := by
  unfold wildcard_escape
  split <;> first
    | decide
    | simp_all [spec_escape, spec_metachars]

lemma foldl_escape_congr (l : List Char) (init : String) :
    l.foldl (fun r ch => r ++ wildcard_escape ch) init =
      l.foldl (fun r ch => r ++ spec_escape ch) init := by
  induction l generalizing init with
  | nil => rfl
  | cons c cs ih => simp only [List.foldl_cons, wildcard_escape_eq_spec, ih]

/-- Claim C5: the CDN load-time pattern handling agrees with its
specification — (1) the classification (wildcard→anchored escaped regex,
raw-metacharacter→direct regex, otherwise lowercased exact key) matches
the spec's wording including the exact escape list; (2) the parse loop
never fails; (3) a pattern whose regex fails to compile is dropped,
leaving the database untouched, without failing the load. -/
theorem cdn_pattern_classification :
    (∀ p : String, classify_pattern p = spec_classify_pattern p) ∧
    (∀ (compileOk : String → Bool) (entries : List (String × CdnEntry)),
        ∃ db, parse_yaml compileOk entries = .ok db) ∧
    (∀ (compileOk : String → Bool) (p : String) (e : CdnEntry) (r : String),
        (classify_pattern p = .wildcardRegex r ∨ classify_pattern p = .directRegex r) →
        compileOk r = false →
        parse_yaml compileOk [(p, e)] = .ok ⟨false, [], []⟩) := by
  refine ⟨fun p => ?_, fun compileOk entries => ⟨_, rfl⟩, fun compileOk p e r hcls hfail => ?_⟩
  · unfold classify_pattern spec_classify_pattern wildcard_to_regex spec_wildcard_regex
    by_cases h1 : (strContainsChar p '*' || strContainsChar p '?') = true
    · simp only [h1, if_pos, if_true]
      rw [foldl_escape_congr]
    · simp only [h1, if_false, Bool.not_eq_true] at *
      simp [h1]
  · rcases hcls with h | h <;>
      simp [parse_yaml, process_pattern, h, hfail]

/-- Witness for C5: the classification of the wildcard pattern `*.a`
agrees with the spec's wording, and the single direct-regex pattern `ab[`
is dropped under a failing compiler, with the load still succeeding on an
empty database. -/
theorem cdn_pattern_classification_witness :
    classify_pattern "*.a" = spec_classify_pattern "*.a" ∧
    parse_yaml (fun _ => false) [("ab[", ⟨"E", none⟩)] = .ok ⟨false, [], []⟩ :=
  ⟨cdn_pattern_classification.1 "*.a",
   cdn_pattern_classification.2.2 (fun _ => false) "ab[" ⟨"E", none⟩ "ab["
     (Or.inr (by decide)) rfl⟩

end CDN

namespace CDN

/-- Counterexample to C6 as stated: with the wildcard pattern
`*.example.com` loaded, looking up `example.com` returns not-found — the
pattern lives in the regex list, the base-domain fallback consults only
the exact map, and the compiled regex `^.*\.example\.com$` demands a
literal dot before `example.com`. -/
theorem cdn_wildcard_base_domain_counterexample :
    lookup_cdn (fun _ _ => false) c6Db "example.com" = .ok none := by
  decide

/-- Claim C6 (amended): with the pattern `*.example.com` loaded,
`foo.example.com` resolves to its provider (via the regex list),
`example.com` returns not-found (the base-domain fallback consults only
the exact-match map, which holds no wildcard patterns), and `exampleXcom`
returns not-found; a pattern without wildcard or regex characters such as
`cloudflare.com` is stored only in the exact map and never enters the
regex list, so it can match only through the exact/base-domain path. -/
theorem cdn_wildcard_matching :
    lookup_cdn (fun _ _ => false) c6Db "foo.example.com" =
      .ok (some ⟨"foo.example.com", "Example CDN", none⟩) ∧
    lookup_cdn (fun _ _ => false) c6Db "example.com" = .ok none ∧
    lookup_cdn (fun _ _ => false) c6Db "exampleXcom" = .ok none ∧
    c6DbCf.regex_matches = [] ∧
    c6DbCf.exact_matches = [("cloudflare.com", ⟨"Cloudflare", none⟩)] := by
  decide

end CDN

lemma lookupAssoc_insert_self {β : Type} (l : List (String × β)) (k : String) (v : β) :
    lookupAssoc (insertAssoc l k v) k = some v := by
  induction l with
  | nil => simp [insertAssoc, lookupAssoc]
  | cons kv rest ih =>
    obtain ⟨k', w⟩ := kv
    by_cases h : k' = k
    · simp [insertAssoc, lookupAssoc, h]
    · simp [insertAssoc, lookupAssoc, h, ih]

lemma load_and_store_holds_name {H G : Type} (env : Manager.Env H G)
    (st : Manager.MState H G) (name : String) (db : H) (db_path : String)
    (effs : List Manager.Eff) :
    (Manager.load_and_store env st name db db_path effs).1 = .ok () →
    (lookupAssoc (Manager.load_and_store env st name db db_path
      effs).2.1.databases name).isSome = true := by
  unfold Manager.load_and_store
  split <;> simp [lookupAssoc_insert_self]

/-- Claim C8: `get_or_load_database` is idempotent for sequential calls —
after any successful call the handle map holds the name, and a call for a
name already in the map returns success immediately with the state
untouched (same handle) and an empty effect list: no construction, file
I/O, download or insertion. -/
theorem get_or_load_database_idempotent :
    (∀ (H G : Type) (env : Manager.Env H G) (st : Manager.MState H G)
        (name : String) (ty : Manager.DatabaseType),
        (Manager.get_or_load_database env st name ty).1 = .ok () →
        (lookupAssoc (Manager.get_or_load_database env st name ty).2.1.databases
          name).isSome = true) ∧
    (∀ (H G : Type) (env : Manager.Env H G) (st : Manager.MState H G)
        (name : String) (ty : Manager.DatabaseType) (hdl : H),
        lookupAssoc st.databases name = some hdl →
        Manager.get_or_load_database env st name ty = (.ok (), st, [])) := by
  constructor
  · intro H G env st name ty
    unfold Manager.get_or_load_database
    repeat' split
    all_goals first
      | exact load_and_store_holds_name _ _ _ _ _ _
      | (intro hok; simp_all [lookupAssoc_insert_self])
  · intro H G env st name ty hdl hlk
    simp [Manager.get_or_load_database, hlk]

/-- Witness for C8: in the concrete environment `c8Env`, a load into the
empty state succeeds and records the `qqwry` handle; a second call on the
resulting state `c8St` is an immediate success with no state change and no
effects. -/
theorem get_or_load_database_idempotent_witness :
    (lookupAssoc (Manager.get_or_load_database c8Env ⟨[], []⟩ "qqwry"
        .QQwry).2.1.databases "qqwry").isSome = true ∧
    Manager.get_or_load_database c8Env c8St "qqwry" .QQwry = (.ok (), c8St, []) :=
  ⟨get_or_load_database_idempotent.1 Nat Nat c8Env ⟨[], []⟩ "qqwry" .QQwry (by decide),
   get_or_load_database_idempotent.2 Nat Nat c8Env c8St "qqwry" .QQwry 5 (by decide)⟩

/-- Claim C9: after `query_ip` returns `Ok(r)`, the query cache maps
`"ip:" + address` to `r` — a `None` result included — and a second
sequential `query_ip` of the same address returns `Ok(r)` from the cache
with the state unchanged and no effects (in particular no dispatch to the
database's `lookup_ip`). -/
theorem query_ip_caches_result :
    ∀ (H G : Type) (env : Manager.Env H G) (st : Manager.MState H G) (ip : Ip)
      (r : Option G) (st' : Manager.MState H G) (effs : List Manager.Eff),
      Manager.query_ip env st ip = (.ok r, st', effs) →
      lookupAssoc st'.query_cache ("ip:" ++ env.show_ip ip) =
        some (.GeoLocation r) ∧
      Manager.query_ip env st' ip = (.ok r, st', []) := by
  intro H G env st ip r st' effs h
  cases ip <;>
  · simp only [Manager.query_ip] at h ⊢
    split at h
    · rename_i result heq
      simp only [Prod.mk.injEq, Except.ok.injEq] at h
      obtain ⟨rfl, rfl, rfl⟩ := h
      refine ⟨heq, ?_⟩
      rw [heq]
    · split at h
      · simp at h
      · split at h
        · simp at h
        · rename_i st1 effs1 hgol
          split at h
          · split at h
            · simp at h
            · rename_i result hlkup
              simp only [Prod.mk.injEq, Except.ok.injEq] at h
              obtain ⟨rfl, rfl, rfl⟩ := h
              refine ⟨lookupAssoc_insert_self _ _ _, ?_⟩
              rw [lookupAssoc_insert_self]
          · simp only [Prod.mk.injEq, Except.ok.injEq] at h
            obtain ⟨rfl, rfl, rfl⟩ := h
            refine ⟨lookupAssoc_insert_self _ _ _, ?_⟩
            rw [lookupAssoc_insert_self]

/-- Witness for C9: in the concrete environment, the first `query_ip` of
address `.v4 1` loads the database, dispatches, and produces the state
`c9Stp` whose cache holds `ip:4 ↦ some 42`; the theorem then gives the
cached entry and the effect-free second call. -/
theorem query_ip_caches_result_witness :
    lookupAssoc c9Stp.query_cache ("ip:" ++ c8Env.show_ip (.v4 1)) =
      some (.GeoLocation (some 42)) ∧
    Manager.query_ip c8Env c9Stp (.v4 1) = (.ok (some 42), c9Stp, []) :=
  query_ip_caches_result Nat Nat c8Env ⟨[], []⟩ (.v4 1) (some 42) c9Stp
    [.construct, .fileLoad, .insertDb, .dispatchLookup] (by decide)
